import Mathlib

/-!
Shallow embedding of the `vst_table_macros` crate.

`src/lib.rs` provides two pure helpers, `make_strings` and `ease_in_expo`.
`src/macros.rs` provides macros that, given a parameter table (one row per
enum variant: `variant, idx, name, field_name, default, string`), generate:

* `TryFrom<i32>` (`tryFrom` below) and `From<Id> for i32` (`intoI32`),
* a `Display` impl returning the row's name (`displayName`),
* `get_ref` / `default` / `get_default` / `get_strings` over the table,
* `get` / `set` (the `set` brackets the atomic store with the host's
  `begin_edit` / `end_edit` calls), and
* the `PluginParameters` facade (`get_parameter_label`, `get_parameter_text`,
  `get_parameter_name`, `get_parameter`, `set_parameter`, `can_be_automated`,
  `string_to_parameter`).

Modelling choices:
* The parameter enum is an abstract type `α` with decidable equality; the
  table is a list of rows.  A Rust `match` over literal arms is modelled by
  `List.find?` (first matching arm wins).  Totality of the match over enum
  variants becomes a `getD`-style fallback that is dead code whenever the
  table covers every variant (carried as a hypothesis where needed).
* Each row's `field_name` (the backing `AtomicFloat` field) is identified
  with its variant, so the store's cells are a function `α → ℚ`.
* `f32` values are modelled as exact rationals `ℚ`; `2.0f32.powf` is an
  abstract function `pow2 : ℚ → ℚ`, constrained where a claim needs the
  (exactly representable) values `powf 2 5 = 32` and `powf 2 10 = 1024`.
* Host interaction and the atomic store are made observable through an
  event trace: `set` appends `beginEdit i`, `store a v`, `endEdit i` in the
  order the source performs them; methods that take `&self` and perform no
  store and no host call return the state unchanged.
* `Parameters::from(self).field` (external user code feeding the row
  formatters in `get_strings`) is an abstract function
  `pf : (α → ℚ) → α → γ`.
* Rust's `format!("{:.2}", v)` is modelled by `formatTwoDecimals`: decimal
  rounding to two places, ties to even, as Rust's float formatting does.
-/

namespace VstTable

/-- One row of the user-supplied parameter table:
`$variant, $idx, $name, $field_name, $default, $string`.
The `field_name` column is identified with `variant`. -/
structure TableRow (α γ : Type) where
  variant : α
  idx : Int
  name : String
  default : ℚ
  string : γ → String × String

/-- The parameter table a user feeds to `impl_all`. -/
structure ParamTable (α γ : Type) where
  rows : List (TableRow α γ)

/-- Observable effects of the registry: host edit-bracket calls and the
atomic store itself, in program order. -/
inductive HostEvent (α : Type) where
  | beginEdit (idx : Int)
  | store (param : α) (value : ℚ)
  | endEdit (idx : Int)

/-- The `$raw_parameters` struct: one atomic float cell per variant (the
generated fields), plus the trace of observable effects performed so far
(standing in for the borrowed `host : HostCallback`). -/
structure RPState (α : Type) where
  cells : α → ℚ
  trace : List (HostEvent α)

variable {α γ : Type} [DecidableEq α]

/-- `impl_from_i32`: `TryFrom<i32>` — `match x { $idx => Ok($variant), ... , _ => Err(()) }`,
first matching arm wins; `none` models `Err(())`. -/
def tryFrom (t : ParamTable α γ) (x : Int) : Option α :=
  (t.rows.find? (fun r => r.idx == x)).map (fun r => r.variant)

/-- `impl_into_i32`: `From<$parameter_type> for i32` — `match x { $variant => $idx, ... }`.
The `0` fallback is dead code whenever the table covers every variant. -/
def intoI32 (t : ParamTable α γ) (a : α) : Int :=
  match t.rows.find? (fun r => r.variant == a) with
  | some r => r.idx
  | none => 0

/-- `impl_display`: `match self { $variant => write!(f, $name), ... }`. -/
def displayName (t : ParamTable α γ) (a : α) : String :=
  match t.rows.find? (fun r => r.variant == a) with
  | some r => r.name
  | none => ""

/-- `impl_get_default`: `match x { $variant => $default, ... }`. -/
def get_default (t : ParamTable α γ) (a : α) : ℚ :=
  match t.rows.find? (fun r => r.variant == a) with
  | some r => r.default
  | none => 0

/-- `impl_default`: every generated field starts as
`AtomicFloat::new($default)`; no host calls have happened yet. -/
def defaultRP (t : ParamTable α γ) : RPState α :=
  { cells := fun a =>
      match t.rows.find? (fun r => r.variant == a) with
      | some r => r.default
      | none => 0
    trace := [] }

/-- `impl_get_set`'s `get`: `self.get_ref(parameter).get()` — an atomic load,
no store, no host call. -/
def get (s : RPState α) (a : α) : ℚ × RPState α :=
  (s.cells a, s)

/-- `impl_get_set`'s `set`: `begin_edit(parameter.into())`, then
`get_ref(parameter).set(value)`, then `end_edit(parameter.into())`. -/
def set (t : ParamTable α γ) (s : RPState α) (value : ℚ) (a : α) : RPState α :=
  { cells := Function.update s.cells a value
    trace := s.trace ++
      [HostEvent.beginEdit (intoI32 t a), HostEvent.store a value,
       HostEvent.endEdit (intoI32 t a)] }

/-- `impl_get_strings`: `match parameter { $variant => $string(params.$field_name), ... }`
where `params = Parameters::from(self)` is external user code, abstracted
as `pf`. -/
def get_strings (t : ParamTable α γ) (pf : (α → ℚ) → α → γ)
    (s : RPState α) (a : α) : String × String :=
  match t.rows.find? (fun r => r.variant == a) with
  | some r => r.string (pf s.cells a)
  | none => ("", "")

/-- `PluginParameters::get_parameter_label`: on resolve, the second
component of `get_strings`; else `""`. Takes `&self`: no store, no host call. -/
def get_parameter_label (t : ParamTable α γ) (pf : (α → ℚ) → α → γ)
    (s : RPState α) (index : Int) : String × RPState α :=
  match tryFrom t index with
  | some parameter => ((get_strings t pf s parameter).2, s)
  | none => ("", s)

/-- `PluginParameters::get_parameter_text`: on resolve, the first component
of `get_strings`; else `""`. -/
def get_parameter_text (t : ParamTable α γ) (pf : (α → ℚ) → α → γ)
    (s : RPState α) (index : Int) : String × RPState α :=
  match tryFrom t index with
  | some parameter => ((get_strings t pf s parameter).1, s)
  | none => ("", s)

/-- `PluginParameters::get_parameter_name`: on resolve, `param.to_string()`
(the generated `Display`); else `""`. -/
def get_parameter_name (t : ParamTable α γ)
    (s : RPState α) (index : Int) : String × RPState α :=
  match tryFrom t index with
  | some param => (displayName t param, s)
  | none => ("", s)

/-- `PluginParameters::get_parameter`: on resolve, `self.get(parameter)`;
else `0.0`. -/
def get_parameter (t : ParamTable α γ)
    (s : RPState α) (index : Int) : ℚ × RPState α :=
  match tryFrom t index with
  | some parameter => get s parameter
  | none => (0, s)

/-- `PluginParameters::set_parameter`: on resolve, echo suppression —
`if self.get(parameter) == value { return; }` — then `self.set(value, parameter)`;
on a failed resolve, nothing happens. -/
def set_parameter (t : ParamTable α γ)
    (s : RPState α) (index : Int) (value : ℚ) : RPState α :=
  match tryFrom t index with
  | some parameter =>
      if (get s parameter).1 = value then s else set t s value parameter
  | none => s

/-- `PluginParameters::can_be_automated`: `try_from(index).is_ok()`. -/
def can_be_automated (t : ParamTable α γ)
    (s : RPState α) (index : Int) : Bool × RPState α :=
  ((tryFrom t index).isSome, s)

/-- `PluginParameters::string_to_parameter`: always `false`. -/
def string_to_parameter (s : RPState α) (_index : Int)
    (_text : String) : Bool × RPState α :=
  (false, s)

/-- Decimal rounding to an integer, ties to even, as Rust's fixed-precision
float formatting rounds. -/
def roundHalfEven (q : ℚ) : ℤ :=
  let f := ⌊q⌋
  let r := q - f
  if r < 1 / 2 then f
  else if 1 / 2 < r then f + 1
  else if f % 2 = 0 then f else f + 1

/-- `format!("{:.2}", v)`: the value rendered with exactly two decimal
places. -/
def formatTwoDecimals (q : ℚ) : String :=
  let n : ℤ := roundHalfEven (q * 100)
  let m : ℕ := n.natAbs
  (if n < 0 then "-" else "") ++ toString (m / 100) ++ "." ++
    (if m % 100 < 10 then "0" else "") ++ toString (m % 100)

/-- `lib.rs`: `make_strings(value, label) = (format!("{:.2}", value), label.to_string())`. -/
def make_strings (value : ℚ) (label : String) : String × String :=
  (formatTwoDecimals value, label)

/-- `lib.rs`: `ease_in_expo` — `if x <= 0.0 { 0.0 } else { (2f32.powf(10*x) - 1) / (2f32.powf(10) - 1) }`.
`pow2` abstracts `2.0f32.powf`. -/
def ease_in_expo (pow2 : ℚ → ℚ) (x : ℚ) : ℚ :=
  if x ≤ 0 then 0 else (pow2 (10 * x) - 1) / (pow2 10 - 1)

/-- `InRange s`: every stored cell holds a normalized value in [0, 1]. -/
def InRange (s : RPState α) : Prop :=
  ∀ a, 0 ≤ s.cells a ∧ s.cells a ≤ 1

/-- A concrete two-parameter enum, playing the role of a user-written
`ParameterId`, used to evaluate the generic development. -/
inductive PId where
  | masterVolume
  | pan
deriving DecidableEq

/-- A concrete parameter table for `PId`. -/
def exTable : ParamTable PId ℚ :=
  ⟨[{ variant := PId.masterVolume, idx := 0, name := "Master Volume",
      default := 1, string := fun q => (formatTwoDecimals q, "db") },
    { variant := PId.pan, idx := 1, name := "Pan",
      default := 0, string := fun q => (formatTwoDecimals q, "%") }]⟩

/-- A concrete `Parameters::from` stand-in: the identity denormalization. -/
def exPF : (PId → ℚ) → PId → ℚ := fun cells a => cells a

/-- A concrete store state with `masterVolume = 7/10`, `pan = 3/10`. -/
def exState7 : RPState PId :=
  { cells := fun a => match a with
      | PId.masterVolume => 7 / 10
      | PId.pan => 3 / 10
    trace := [] }

/-- A concrete `2.0f32.powf` stand-in, exact at the exponents needed. -/
def exPow2 : ℚ → ℚ :=
  fun q => if q = 5 then 32 else if q = 10 then 1024 else 0

/-- Helper: `set` keeps every cell in [0, 1] when the state was in range and
the written value is in range. -/
theorem set_keeps_range (t : ParamTable α γ) (s : RPState α) (v : ℚ) (a : α)
    (hs : InRange s) (h0 : 0 ≤ v) (h1 : v ≤ 1) : InRange (set t s v a) := by
  intro b
  simp only [set]
  rcases eq_or_ne b a with hb | hb
  · subst hb
    rw [Function.update_same]
    exact ⟨h0, h1⟩
  · rw [Function.update_noteq hb]
    exact hs b

/-- C1: when the index resolves, `set_parameter` with a value bit-for-bit
equal to the stored one is a no-op (state, hence also the edit bracket,
unchanged); with a different value it is exactly `set`; and an immediate
second call with the same value is always a no-op. -/
theorem set_parameter_echo_suppression (t : ParamTable α γ) (s : RPState α)
    (index : Int) (value : ℚ) (p : α) (h : tryFrom t index = some p) :
    ((get s p).1 = value → set_parameter t s index value = s)
    ∧ ((get s p).1 ≠ value → set_parameter t s index value = set t s value p)
    ∧ set_parameter t (set_parameter t s index value) index value
        = set_parameter t s index value := by
  refine ⟨?_, ?_, ?_⟩
  · intro hv
    simp only [set_parameter, h]
    rw [if_pos hv]
  · intro hv
    simp only [set_parameter, h]
    rw [if_neg hv]
  · by_cases hv : (get s p).1 = value
    · have h1 : set_parameter t s index value = s := by
        simp only [set_parameter, h]
        rw [if_pos hv]
      rw [h1]
      exact h1
    · have h1 : set_parameter t s index value = set t s value p := by
        simp only [set_parameter, h]
        rw [if_neg hv]
      have h2 : (get (set t s value p) p).1 = value := by
        simp [get, set, Function.update_same]
      rw [h1]
      simp only [set_parameter, h]
      rw [if_pos h2]

/-- C1 witness: storing `7/10` at index 0 when the cell already holds `7/10`
leaves the state (cells and host-event trace) unchanged. -/
theorem set_parameter_echo_suppression_witness :
    tryFrom exTable 0 = some PId.masterVolume
    ∧ (get exState7 PId.masterVolume).1 = 7 / 10
    ∧ set_parameter exTable exState7 0 (7 / 10) = exState7 :=
  ⟨by decide, rfl,
    (set_parameter_echo_suppression exTable exState7 0 (7 / 10)
      PId.masterVolume (by decide)).1 rfl⟩

/-- C2: `can_be_automated` is true exactly when the index resolves, and on a
failed resolve the string getters return `""`, `get_parameter` returns `0.0`,
and `set_parameter` leaves the whole state (cells and trace) unchanged. -/
theorem facade_invalid_index_defaults (t : ParamTable α γ)
    (pf : (α → ℚ) → α → γ) (s : RPState α) (index : Int) (value : ℚ) :
    ((can_be_automated t s index).1 = true ↔ ∃ p, tryFrom t index = some p)
    ∧ (tryFrom t index = none →
        (get_parameter_label t pf s index).1 = ""
        ∧ (get_parameter_text t pf s index).1 = ""
        ∧ (get_parameter_name t s index).1 = ""
        ∧ (get_parameter t s index).1 = 0
        ∧ set_parameter t s index value = s) := by
  constructor
  · simp [can_be_automated, Option.isSome_iff_exists]
  · intro h
    refine ⟨?_, ?_, ?_, ?_, ?_⟩ <;>
      simp [get_parameter_label, get_parameter_text, get_parameter_name,
        get_parameter, set_parameter, h]

/-- C2 witness: index 5 does not resolve in the concrete table, so every
getter returns its default and `set_parameter` changes nothing. -/
theorem facade_invalid_index_defaults_witness :
    tryFrom exTable 5 = none
    ∧ ((get_parameter_label exTable exPF exState7 5).1 = ""
        ∧ (get_parameter_text exTable exPF exState7 5).1 = ""
        ∧ (get_parameter_name exTable exState7 5).1 = ""
        ∧ (get_parameter exTable exState7 5).1 = 0
        ∧ set_parameter exTable exState7 5 (7 / 10) = exState7) :=
  ⟨by decide,
    (facade_invalid_index_defaults exTable exPF exState7 5 (7 / 10)).2
      (by decide)⟩

/-- C3: `set` appends exactly one `begin_edit`, the store, and one
`end_edit`, in that order, with the id converted to its table index, and
performs exactly the single write. -/
theorem set_brackets_single_write (t : ParamTable α γ) (s : RPState α)
    (v : ℚ) (a : α) :
    (set t s v a).trace
      = s.trace ++ [HostEvent.beginEdit (intoI32 t a), HostEvent.store a v,
          HostEvent.endEdit (intoI32 t a)]
    ∧ (set t s v a).cells = Function.update s.cells a v :=
  ⟨rfl, rfl⟩

/-- C4: for a table with pairwise distinct indices covering every variant,
converting an id to its i32 index and back yields the same id. -/
theorem index_id_round_trip (t : ParamTable α γ)
    (hnodup : (t.rows.map (fun r => r.idx)).Nodup)
    (hcover : ∀ b, ((t.rows.find? (fun r => r.variant == b)).isSome = true))
    (a : α) :
    tryFrom t (intoI32 t a) = some a := by
  obtain ⟨r0, h0⟩ := Option.isSome_iff_exists.mp (hcover a)
  have hmem0 : r0 ∈ t.rows := List.mem_of_find?_eq_some h0
  have hvar0 : r0.variant = a := by simpa using List.find?_some h0
  have hint : intoI32 t a = r0.idx := by simp [intoI32, h0]
  have hsome : ((t.rows.find? (fun r => r.idx == r0.idx)).isSome = true) := by
    rw [List.find?_isSome]
    exact ⟨r0, hmem0, by simp⟩
  obtain ⟨r1, h1⟩ := Option.isSome_iff_exists.mp hsome
  have hmem1 : r1 ∈ t.rows := List.mem_of_find?_eq_some h1
  have hidx : r1.idx = r0.idx := by simpa using List.find?_some h1
  have heq : r1 = r0 := List.inj_on_of_nodup_map hnodup hmem1 hmem0 hidx
  rw [hint]
  simp [tryFrom, h1, heq, hvar0]

/-- C4 witness: the concrete table has distinct indices and covers both
variants, and `masterVolume` round-trips through its index. -/
theorem index_id_round_trip_witness :
    (exTable.rows.map (fun r => r.idx)).Nodup
    ∧ (∀ b, ((exTable.rows.find? (fun r => r.variant == b)).isSome = true))
    ∧ tryFrom exTable (intoI32 exTable PId.masterVolume)
        = some PId.masterVolume :=
  ⟨by decide, fun b => by cases b <;> rfl,
    index_id_round_trip exTable (by decide) (fun b => by cases b <;> rfl)
      PId.masterVolume⟩

/-- C5: immediately after `default(host)`, `get` returns the table row's
default for every id, and this agrees with `get_default`. -/
theorem default_init_matches_table (t : ParamTable α γ) (a : α) (d : ℚ)
    (h : ((t.rows.find? (fun r => r.variant == a)).map (fun r => r.default))
        = some d) :
    (get (defaultRP t) a).1 = d
    ∧ (get (defaultRP t) a).1 = get_default t a := by
  obtain ⟨r, hr, hd⟩ := Option.map_eq_some'.mp h
  constructor
  · simp [get, defaultRP, hr, hd]
  · simp [get, defaultRP, get_default]

/-- C5 witness: right after construction from the concrete table, the
`masterVolume` cell holds its table default, which equals `get_default`. -/
theorem default_init_matches_table_witness :
    ((exTable.rows.find? (fun r => r.variant == PId.masterVolume)).map
        (fun r => r.default)) = some 1
    ∧ ((get (defaultRP exTable) PId.masterVolume).1 = 1
        ∧ (get (defaultRP exTable) PId.masterVolume).1
            = get_default exTable PId.masterVolume) :=
  ⟨rfl, default_init_matches_table exTable PId.masterVolume 1 rfl⟩

/-- C6: on a resolving index, `get_parameter_label` returns the second
(units) component of `get_strings`, `get_parameter_text` the first (value)
component, and `get_parameter_name` the table row's display name via the
generated `Display`. -/
theorem facade_strings_and_name (t : ParamTable α γ)
    (pf : (α → ℚ) → α → γ) (s : RPState α) (index : Int) (p : α)
    (h : tryFrom t index = some p) :
    (get_parameter_label t pf s index).1 = (get_strings t pf s p).2
    ∧ (get_parameter_text t pf s index).1 = (get_strings t pf s p).1
    ∧ (get_parameter_name t s index).1 = displayName t p
    ∧ (∀ n, ((t.rows.find? (fun r => r.variant == p)).map (fun r => r.name))
          = some n → displayName t p = n) := by
  refine ⟨?_, ?_, ?_, ?_⟩
  · simp [get_parameter_label, h]
  · simp [get_parameter_text, h]
  · simp [get_parameter_name, h]
  · intro n hn
    obtain ⟨r, hr, hname⟩ := Option.map_eq_some'.mp hn
    simp [displayName, hr, hname]

/-- C6 witness: at index 1, the facade returns the units half, the value
half, and the display name "Pan" of the concrete table row. -/
theorem facade_strings_and_name_witness :
    tryFrom exTable 1 = some PId.pan
    ∧ ((get_parameter_label exTable exPF exState7 1).1
          = (get_strings exTable exPF exState7 PId.pan).2
        ∧ (get_parameter_text exTable exPF exState7 1).1
            = (get_strings exTable exPF exState7 PId.pan).1
        ∧ (get_parameter_name exTable exState7 1).1 = displayName exTable PId.pan
        ∧ (∀ n, ((exTable.rows.find? (fun r => r.variant == PId.pan)).map
              (fun r => r.name)) = some n → displayName exTable PId.pan = n)) :=
  ⟨by decide,
    facade_strings_and_name exTable exPF exState7 1 PId.pan (by decide)⟩

/-- C7 counterexample: the claimed invariant fails as stated — with all
table defaults in [0, 1], one `set_parameter` call through the public
facade stores `2.0`, a value outside [0, 1] (the store does not clamp). -/
theorem range_invariant_fails_as_stated :
    (∀ r ∈ exTable.rows, 0 ≤ r.default ∧ r.default ≤ 1)
    ∧ (set_parameter exTable (defaultRP exTable) 0 2).cells PId.masterVolume
        = 2
    ∧ ¬ InRange (set_parameter exTable (defaultRP exTable) 0 2) := by
  have ht : tryFrom exTable 0 = some PId.masterVolume := by decide
  have hne : (get (defaultRP exTable) PId.masterVolume).1 ≠ (2 : ℚ) := by
    have hg : (get (defaultRP exTable) PId.masterVolume).1 = 1 := rfl
    rw [hg]
    norm_num
  have hsp : set_parameter exTable (defaultRP exTable) 0 2
      = set exTable (defaultRP exTable) 2 PId.masterVolume := by
    simp only [set_parameter, ht]
    rw [if_neg hne]
  have hcell : (set_parameter exTable (defaultRP exTable) 0 2).cells
      PId.masterVolume = 2 := by
    rw [hsp]
    simp [set, Function.update_same]
  refine ⟨by decide, hcell, ?_⟩
  intro hin
  have := (hin PId.masterVolume).2
  rw [hcell] at this
  norm_num at this

/-- C7 (amended): the [0, 1] invariant holds from default initialization and
is preserved by `set` and `set_parameter` provided the table defaults and
every written value lie in [0, 1]; the store itself never clamps. -/
theorem range_invariant_amended (t : ParamTable α γ) :
    ((∀ r ∈ t.rows, 0 ≤ r.default ∧ r.default ≤ 1) → InRange (defaultRP t))
    ∧ (∀ (s : RPState α) (v : ℚ) (a : α), InRange s → 0 ≤ v → v ≤ 1 →
        InRange (set t s v a))
    ∧ (∀ (s : RPState α) (index : Int) (v : ℚ), InRange s → 0 ≤ v → v ≤ 1 →
        InRange (set_parameter t s index v)) := by
  refine ⟨?_, ?_, ?_⟩
  · intro h a
    simp only [defaultRP]
    cases hf : t.rows.find? (fun r => r.variant == a) with
    | none => simp [hf]
    | some r =>
        simp only [hf]
        exact h r (List.mem_of_find?_eq_some hf)
  · exact fun s v a => set_keeps_range t s v a
  · intro s index v hs h0 h1
    cases hf : tryFrom t index with
    | none =>
        have hsp : set_parameter t s index v = s := by
          simp [set_parameter, hf]
        rw [hsp]
        exact hs
    | some p =>
        by_cases hv : (get s p).1 = v
        · have hsp : set_parameter t s index v = s := by
            simp only [set_parameter, hf]
            rw [if_pos hv]
          rw [hsp]
          exact hs
        · have hsp : set_parameter t s index v = set t s v p := by
            simp only [set_parameter, hf]
            rw [if_neg hv]
          rw [hsp]
          exact set_keeps_range t s v p hs h0 h1

/-- C7 witness: the concrete table's defaults are in [0, 1], so the freshly
constructed store is entirely in range. -/
theorem range_invariant_amended_witness :
    (∀ r ∈ exTable.rows, 0 ≤ r.default ∧ r.default ≤ 1)
    ∧ InRange (defaultRP exTable) :=
  ⟨by decide, (range_invariant_amended exTable).1 (by decide)⟩

/-- C8: with `pow2` standing for `2.0f32.powf` (exact at the integer
exponents reached), `ease_in_expo` is 0 at 0 and at -1/2, exactly 1 at 1
(hence within float epsilon of 1), and at 1/2 lies strictly between 0 and 1
and strictly below 1/2. -/
theorem ease_in_expo_values (pow2 : ℚ → ℚ)
    (h5 : pow2 5 = 32) (h10 : pow2 10 = 1024) :
    ease_in_expo pow2 0 = 0
    ∧ ease_in_expo pow2 (-(1 / 2)) = 0
    ∧ ease_in_expo pow2 1 = 1
    ∧ 0 < ease_in_expo pow2 (1 / 2)
    ∧ ease_in_expo pow2 (1 / 2) < 1 / 2
    ∧ ease_in_expo pow2 (1 / 2) < 1 := by
  have harg : (10 : ℚ) * (1 / 2) = 5 := by norm_num
  have hhalf : ease_in_expo pow2 (1 / 2) = 31 / 1023 := by
    unfold ease_in_expo
    rw [if_neg (by norm_num), harg, h5, h10]
    norm_num
  refine ⟨?_, ?_, ?_, ?_, ?_, ?_⟩
  · unfold ease_in_expo
    rw [if_pos le_rfl]
  · unfold ease_in_expo
    rw [if_pos (by norm_num)]
  · unfold ease_in_expo
    rw [if_neg (by norm_num), show (10 : ℚ) * 1 = 10 by norm_num, h10]
    norm_num
  · rw [hhalf]
    norm_num
  · rw [hhalf]
    norm_num
  · rw [hhalf]
    norm_num

/-- C8 witness: a concrete `pow2` with the exact values of `2.0f32.powf` at
5 and 10 satisfies the hypotheses, and `ease_in_expo` maps 1 to 1 there. -/
theorem ease_in_expo_values_witness :
    exPow2 5 = 32 ∧ exPow2 10 = 1024 ∧ ease_in_expo exPow2 1 = 1 :=
  ⟨by decide, by decide,
    (ease_in_expo_values exPow2 (by decide) (by decide)).2.2.1⟩

/-- C9: `make_strings` pairs the value rendered with two decimal places with
the label copied verbatim; in particular `make_strings 0.5 "Volume"` is
`("0.50", "Volume")`. -/
theorem make_strings_spec :
    (∀ (v : ℚ) (l : String), make_strings v l = (formatTwoDecimals v, l))
    ∧ make_strings (1 / 2) "Volume" = ("0.50", "Volume") := by
  constructor
  · intro v l
    rfl
  · have hr : roundHalfEven ((1 / 2 : ℚ) * 100) = 50 := by
      rw [show (1 / 2 : ℚ) * 100 = 50 by norm_num]
      unfold roundHalfEven
      norm_num
    show (formatTwoDecimals (1 / 2), "Volume") = ("0.50", "Volume")
    unfold formatTwoDecimals
    rw [hr]
    decide

/-- C10: `get` and the facade reads (`get_parameter`, `get_parameter_label`,
`get_parameter_text`, `get_parameter_name`) leave the state untouched: no
cell is written and no `begin_edit`/`end_edit` event is emitted. -/
theorem reads_are_pure (t : ParamTable α γ) (pf : (α → ℚ) → α → γ)
    (s : RPState α) (index : Int) (a : α) :
    (get s a).2 = s
    ∧ (get_parameter t s index).2 = s
    ∧ (get_parameter_label t pf s index).2 = s
    ∧ (get_parameter_text t pf s index).2 = s
    ∧ (get_parameter_name t s index).2 = s := by
  refine ⟨rfl, ?_, ?_, ?_, ?_⟩ <;>
    cases h : tryFrom t index <;>
      simp [get_parameter, get_parameter_label, get_parameter_text,
        get_parameter_name, get, h]

end VstTable
